import Mathlib

/-!
Verification of the retrieval-cascade backend of the multi-modal chat bot.

The Python backend is shallowly embedded: dictionaries holding search results
become the `ScoredResult` structure, the float relevance score becomes a
rational number (every comparison performed by the code is against a decimal
literal, where rational and IEEE ordering agree), and the effectful calls to
external services (vector index, search libraries, HTTP fetches, the
generation engine) become explicit outcome parameters supplied through
environment records.  Fallible calls are represented with `Except` /
`AdapterOutcome` values.
-/

namespace ChatBot

/-- Common result shape produced by the vector index and the web-search
adapters (`title`, `content`, `url`, `source`, `score` keys of the Python
dicts; a missing `url` is represented by the empty string, exactly as
`result.get('url', '')` does). -/
structure ScoredResult where
  title : String
  content : String
  url : String
  source : String
  score : ℚ
  deriving DecidableEq

/-- Loop of `WebSearchManager._deduplicate_results`
(`src/backend/web_search_manager.py`, lines 281-293): walk the list keeping a
`seen_urls` set; a result with a non-empty url is kept iff its url has not
been seen, a result with an empty url is always kept. -/
def dedupeAux (seen : List String) : List ScoredResult → List ScoredResult
  | [] => []
  | r :: rs =>
    if r.url = "" then r :: dedupeAux seen rs
    else if r.url ∈ seen then dedupeAux seen rs
    else r :: dedupeAux (r.url :: seen) rs

/-- `WebSearchManager._deduplicate_results` (web_search_manager.py 281-293). -/
def deduplicate_results (results : List ScoredResult) : List ScoredResult :=
  dedupeAux [] results

/-- Modelled from the spec wording of §4.5 (for comparison with the code):
the first occurrence of a given non-empty url wins and every later result
with the same url is dropped; results with an empty url are always kept. -/
def dedupeSpec : List ScoredResult → List ScoredResult
  | [] => []
  | r :: rs =>
    if r.url = "" then r :: dedupeSpec rs
    else r :: dedupeSpec (rs.filter (fun s => s.url ≠ r.url))
termination_by l => l.length
decreasing_by
  · simp only [List.length_cons]
    exact Nat.lt_succ_self _
  · simp only [List.length_cons]
    exact Nat.lt_succ_of_le (List.length_filter_le _ _)

theorem dedupeAux_seen_congr (xs : List ScoredResult) :
    ∀ s₁ s₂ : List String, (∀ u, u ∈ s₁ ↔ u ∈ s₂) →
      dedupeAux s₁ xs = dedupeAux s₂ xs := by
  induction xs with
  | nil => intro s₁ s₂ _; rfl
  | cons r rs ih =>
    intro s₁ s₂ h
    by_cases hu : r.url = ""
    · simp only [dedupeAux, hu, if_pos rfl]
      rw [ih s₁ s₂ h]
      simp
    · by_cases hm : r.url ∈ s₁
      · simp only [dedupeAux, hu, if_neg hu, if_pos hm, if_pos ((h r.url).mp hm)]
        exact ih s₁ s₂ h
      · have hm₂ : r.url ∉ s₂ := fun hc => hm ((h r.url).mpr hc)
        simp only [dedupeAux, if_neg hu, if_neg hm, if_neg hm₂]
        rw [ih (r.url :: s₁) (r.url :: s₂) (by intro u; simp [h u])]

theorem dedupeAux_cons_seen (xs : List ScoredResult) :
    ∀ (seen : List String) (u : String), u ≠ "" →
      dedupeAux (u :: seen) xs =
        dedupeAux seen (xs.filter (fun s => s.url ≠ u)) := by
  induction xs with
  | nil => intro seen u _; rfl
  | cons r rs ih =>
    intro seen u hu
    by_cases hru : r.url = u
    · have hne : ¬ r.url = "" := by rw [hru]; exact hu
      have hmem : r.url ∈ u :: seen := by rw [hru]; exact List.mem_cons_self u seen
      have hfilter : List.filter (fun s => decide (s.url ≠ u)) (r :: rs) =
          List.filter (fun s => decide (s.url ≠ u)) rs := by
        simp [List.filter_cons, hru]
      rw [hfilter]
      have hstep : dedupeAux (u :: seen) (r :: rs) = dedupeAux (u :: seen) rs := by
        simp only [dedupeAux, if_neg hne, if_pos hmem]
      rw [hstep]
      exact ih seen u hu
    · have hfilter : List.filter (fun s => decide (s.url ≠ u)) (r :: rs) =
          r :: List.filter (fun s => decide (s.url ≠ u)) rs := by
        simp [List.filter_cons, hru]
      rw [hfilter]
      by_cases hre : r.url = ""
      · simp only [dedupeAux, if_pos hre]
        rw [ih seen u hu]
      · by_cases hms : r.url ∈ seen
        · have hmc : r.url ∈ u :: seen := List.mem_cons_of_mem _ hms
          simp only [dedupeAux, if_neg hre, if_pos hmc, if_pos hms]
          exact ih seen u hu
        · have hmc : r.url ∉ u :: seen := by
            intro hc
            rcases List.mem_cons.mp hc with h | h
            · exact hru h
            · exact hms h
          simp only [dedupeAux, if_neg hre, if_neg hmc, if_neg hms]
          congr 1
          calc dedupeAux (r.url :: u :: seen) rs
              = dedupeAux (u :: r.url :: seen) rs :=
                dedupeAux_seen_congr rs _ _ (by intro v; simp; tauto)
            _ = dedupeAux (r.url :: seen)
                  (rs.filter (fun s => s.url ≠ u)) := ih (r.url :: seen) u hu

theorem dedupeAux_nil_eq_spec :
    ∀ (n : Nat) (xs : List ScoredResult), xs.length ≤ n →
      dedupeAux [] xs = dedupeSpec xs := by
  intro n
  induction n with
  | zero =>
    intro xs h
    have : xs = [] := List.length_eq_zero.mp (Nat.le_zero.mp h)
    subst this
    simp [dedupeAux, dedupeSpec]
  | succ n ih =>
    intro xs h
    cases xs with
    | nil => simp [dedupeAux, dedupeSpec]
    | cons r rs =>
      have hlen : rs.length ≤ n := by
        simpa using Nat.le_of_succ_le_succ (by simpa using h)
      by_cases hre : r.url = ""
      · simp only [dedupeAux, if_pos hre, dedupeSpec, if_pos hre]
        congr 1
        exact ih rs hlen
      · have hnm : r.url ∉ ([] : List String) := by simp
        simp only [dedupeAux, if_neg hre, if_neg hnm, dedupeSpec]
        congr 1
        rw [dedupeAux_cons_seen rs [] r.url hre]
        exact ih _ (le_trans (List.length_filter_le _ _) hlen)

theorem deduplicate_eq_dedupeSpec (xs : List ScoredResult) :
    deduplicate_results xs = dedupeSpec xs :=
  dedupeAux_nil_eq_spec xs.length xs le_rfl

theorem dedupeAux_sublist (xs : List ScoredResult) :
    ∀ seen, (dedupeAux seen xs).Sublist xs := by
  induction xs with
  | nil => intro seen; simp [dedupeAux]
  | cons r rs ih =>
    intro seen
    by_cases hre : r.url = ""
    · have h1 : dedupeAux seen (r :: rs) = r :: dedupeAux seen rs := by
        simp only [dedupeAux, if_pos hre]
      rw [h1]
      exact (ih seen).cons₂ r
    · by_cases hms : r.url ∈ seen
      · have h1 : dedupeAux seen (r :: rs) = dedupeAux seen rs := by
          simp only [dedupeAux, if_neg hre, if_pos hms]
        rw [h1]
        exact (ih seen).cons r
      · have h1 : dedupeAux seen (r :: rs) = r :: dedupeAux (r.url :: seen) rs := by
          simp only [dedupeAux, if_neg hre, if_neg hms]
        rw [h1]
        exact (ih (r.url :: seen)).cons₂ r

theorem card_insert_eq_card_erase_add_one {α : Type} [DecidableEq α]
    (s : Finset α) (a : α) : (insert a s).card = (s.erase a).card + 1 := by
  by_cases h : a ∈ s
  · rw [Finset.insert_eq_self.mpr h]
    exact (Finset.card_erase_add_one h).symm
  · rw [Finset.erase_eq_of_not_mem h, Finset.card_insert_of_not_mem h]

theorem dedupeAux_length (xs : List ScoredResult) :
    ∀ seen : List String,
      (dedupeAux seen xs).length =
        ((xs.map (fun r => r.url)).filter
            (fun u => decide (u ≠ "" ∧ u ∉ seen))).toFinset.card
          + xs.countP (fun r => r.url = "") := by
  induction xs with
  | nil => intro seen; simp [dedupeAux]
  | cons r rs ih =>
    intro seen
    by_cases hre : r.url = ""
    · have h1 : dedupeAux seen (r :: rs) = r :: dedupeAux seen rs := by
        simp only [dedupeAux, if_pos hre]
      rw [h1, List.length_cons, ih seen, List.map_cons, List.filter_cons,
        List.countP_cons]
      simp only [hre]
      simp
      omega
    · by_cases hms : r.url ∈ seen
      · have h1 : dedupeAux seen (r :: rs) = dedupeAux seen rs := by
          simp only [dedupeAux, if_neg hre, if_pos hms]
        rw [h1, ih seen, List.map_cons, List.filter_cons, List.countP_cons]
        simp [hre, hms]
      · have h1 : dedupeAux seen (r :: rs) = r :: dedupeAux (r.url :: seen) rs := by
          simp only [dedupeAux, if_neg hre, if_neg hms]
        have hkeep : decide (r.url ≠ "" ∧ r.url ∉ seen) = true := by
          simp [hre, hms]
        rw [h1, List.length_cons, ih (r.url :: seen), List.map_cons,
          List.filter_cons, hkeep, if_pos rfl, List.countP_cons,
          List.toFinset_cons, card_insert_eq_card_erase_add_one]
        have herase :
            ((rs.map (fun r => r.url)).filter
                (fun u => decide (u ≠ "" ∧ u ∉ seen))).toFinset.erase r.url =
            ((rs.map (fun r => r.url)).filter
                (fun u => decide (u ≠ "" ∧ u ∉ r.url :: seen))).toFinset := by
          ext a
          simp only [Finset.mem_erase, List.mem_toFinset, List.mem_filter,
            decide_eq_true_eq, List.mem_cons]
          tauto
        rw [herase]
        simp [hre]
        omega

theorem dedupeAux_idem (xs : List ScoredResult) :
    ∀ seen, dedupeAux seen (dedupeAux seen xs) = dedupeAux seen xs := by
  induction xs with
  | nil => intro seen; simp [dedupeAux]
  | cons r rs ih =>
    intro seen
    by_cases hre : r.url = ""
    · have h1 : dedupeAux seen (r :: rs) = r :: dedupeAux seen rs := by
        simp only [dedupeAux, if_pos hre]
      have h2 : ∀ l, dedupeAux seen (r :: l) = r :: dedupeAux seen l := by
        intro l; simp only [dedupeAux, if_pos hre]
      rw [h1, h2, ih seen]
    · by_cases hms : r.url ∈ seen
      · have h1 : dedupeAux seen (r :: rs) = dedupeAux seen rs := by
          simp only [dedupeAux, if_neg hre, if_pos hms]
        rw [h1, ih seen]
      · have h1 : dedupeAux seen (r :: rs) = r :: dedupeAux (r.url :: seen) rs := by
          simp only [dedupeAux, if_neg hre, if_neg hms]
        have h2 : ∀ l, dedupeAux seen (r :: l) = r :: dedupeAux (r.url :: seen) l := by
          intro l; simp only [dedupeAux, if_neg hre, if_neg hms]
        rw [h1, h2, ih (r.url :: seen)]

/-- C2: `_deduplicate_results` is a stable, order-preserving filter keyed on
`url`: it agrees with the specification-level recursion `dedupeSpec` (first
occurrence of each non-empty url kept, every later result with that url
dropped, empty-url results always kept), its output is a sublist of the
input (stability / order preservation), and the output length equals the
number of distinct non-empty urls plus the count of empty-url entries. -/
theorem claim_C2_dedupe_stable_url_filter (xs : List ScoredResult) :
    deduplicate_results xs = dedupeSpec xs ∧
    (deduplicate_results xs).Sublist xs ∧
    (deduplicate_results xs).length =
      ((xs.map (fun r => r.url)).filter (fun u => u ≠ "")).toFinset.card
        + xs.countP (fun r => r.url = "") := by
  refine ⟨deduplicate_eq_dedupeSpec xs, dedupeAux_sublist xs [], ?_⟩
  have h := dedupeAux_length xs []
  have hpred : ∀ u ∈ xs.map (fun r => r.url),
      (decide (u ≠ "" ∧ u ∉ ([] : List String))) = (decide (u ≠ "")) := by
    intro u _; simp
  rw [List.filter_congr hpred] at h
  exact h

/-- C3: `_deduplicate_results` is idempotent:
deduplicating an already deduplicated list changes nothing. -/
theorem claim_C3_dedupe_idempotent (xs : List ScoredResult) :
    deduplicate_results (deduplicate_results xs) = deduplicate_results xs :=
  dedupeAux_idem xs []

/-- One entry of `LLMChat.history`: `{"role": ..., "content": ...}`. -/
structure Turn where
  role : String
  content : String
  deriving DecidableEq

/-- Per-session state of `LLMChat` (llm_chat.py): the rolling `history` and
the configured `history_window`. -/
structure LLMChatState where
  history : List Turn
  history_window : Nat
  deriving DecidableEq

/-- Python slice `l[-k:]`: the last `k` elements, except that `l[-0:]` means
`l[0:]`, the whole list (`-0 == 0` in Python). -/
def pySliceLast {α : Type} (k : Nat) (l : List α) : List α :=
  if k = 0 then l else l.drop (l.length - k)

/-- `LLMChat._update_history` (llm_chat.py 95-99): append the new turn, then
if the history holds more than `history_window * 2` entries keep only
`self.history[-self.history_window*2:]`. -/
def update_history (st : LLMChatState) (role content : String) : LLMChatState :=
  let h := st.history ++ [⟨role, content⟩]
  if h.length > st.history_window * 2 then
    { st with history := pySliceLast (st.history_window * 2) h }
  else
    { st with history := h }

/-- `appendTurn` iterated over a sequence of turns: each turn goes through
`_update_history`. -/
def appendTurns (st : LLMChatState) (ts : List Turn) : LLMChatState :=
  ts.foldl (fun s t => update_history s t.role t.content) st

/-- The last `n` entries of a list (the whole list when it is shorter). -/
def lastN {α : Type} (n : Nat) (l : List α) : List α :=
  l.drop (l.length - n)

theorem lastN_of_le {α : Type} {n : Nat} {l : List α} (h : l.length ≤ n) :
    lastN n l = l := by
  simp [lastN, Nat.sub_eq_zero_of_le h]

theorem lastN_length_le {α : Type} (n : Nat) (l : List α) :
    (lastN n l).length ≤ n := by
  simp only [lastN, List.length_drop]
  omega

theorem lastN_append_lastN {α : Type} (n : Nat) (a b : List α) :
    lastN n (lastN n a ++ b) = lastN n (a ++ b) := by
  by_cases h : a.length ≤ n
  · rw [lastN_of_le h]
  · push_neg at h
    have hk : a.length - n ≤ a.length := Nat.sub_le _ _
    have h1 : lastN n a ++ b = (a ++ b).drop (a.length - n) := by
      unfold lastN
      exact (List.drop_append_of_le_length hk).symm
    rw [h1]
    unfold lastN
    rw [List.length_drop, List.drop_drop]
    congr 1
    simp only [List.length_append]
    omega

theorem update_history_mk (h : List Turn) (w : Nat) (role content : String)
    (hw : 1 ≤ w) :
    update_history ⟨h, w⟩ role content =
      ⟨lastN (w * 2) (h ++ [⟨role, content⟩]), w⟩ := by
  by_cases hc : (h ++ [(⟨role, content⟩ : Turn)]).length > w * 2
  · show (if (h ++ [(⟨role, content⟩ : Turn)]).length > w * 2 then
        (⟨pySliceLast (w * 2) (h ++ [⟨role, content⟩]), w⟩ : LLMChatState)
      else ⟨h ++ [⟨role, content⟩], w⟩) = _
    rw [if_pos hc]
    unfold pySliceLast
    rw [if_neg (by omega)]
    rfl
  · show (if (h ++ [(⟨role, content⟩ : Turn)]).length > w * 2 then
        (⟨pySliceLast (w * 2) (h ++ [⟨role, content⟩]), w⟩ : LLMChatState)
      else ⟨h ++ [⟨role, content⟩], w⟩) = _
    rw [if_neg hc]
    rw [lastN_of_le (Nat.not_lt.mp hc)]

theorem appendTurns_history (ts : List Turn) :
    ∀ (h : List Turn) (w : Nat), 1 ≤ w → h.length ≤ w * 2 →
      (appendTurns ⟨h, w⟩ ts).history = lastN (w * 2) (h ++ ts) := by
  induction ts with
  | nil =>
    intro h w _ hlen
    show h = _
    rw [lastN_of_le (by simpa using hlen)]
    simp
  | cons t ts ih =>
    intro h w hw hlen
    show (appendTurns (update_history ⟨h, w⟩ t.role t.content) ts).history = _
    have hteta : (⟨t.role, t.content⟩ : Turn) = t := rfl
    rw [update_history_mk h w t.role t.content hw, hteta,
      ih _ w hw (lastN_length_le _ _), lastN_append_lastN]
    congr 1
    simp

/-- C5: the session history is a flat FIFO sliding window.  Appending
`2*w + k` turns (`k > 0`) to a fresh session with window `w` leaves exactly
the `2*w` most recent turns, the `k` oldest being evicted; and from any state
already within the bound, any sequence of appends keeps
`len(history) ≤ 2*history_window`.  (Every session the program creates uses
`history_window = 5 ≥ 1`.) -/
theorem claim_C5_history_sliding_window (w k : Nat) (ts : List Turn)
    (hw : 1 ≤ w) (hlen : ts.length = 2 * w + k) (hk : 0 < k) :
    (appendTurns ⟨[], w⟩ ts).history = ts.drop k ∧
    (appendTurns ⟨[], w⟩ ts).history.length = 2 * w ∧
    (∀ st : LLMChatState, 1 ≤ st.history_window →
      st.history.length ≤ 2 * st.history_window →
      ∀ ts₂, (appendTurns st ts₂).history.length ≤ 2 * st.history_window) := by
  have hmain := appendTurns_history ts [] w hw (by simp)
  have hdrop : lastN (w * 2) ([] ++ ts) = ts.drop k := by
    simp only [List.nil_append, lastN]
    congr 1
    omega
  refine ⟨hmain.trans hdrop, ?_, ?_⟩
  · rw [hmain.trans hdrop, List.length_drop]
    omega
  · intro st hst hstlen ts₂
    have h := appendTurns_history ts₂ st.history st.history_window hst
      (by omega)
    have hle := lastN_length_le (st.history_window * 2) (st.history ++ ts₂)
    calc (appendTurns st ts₂).history.length
        = (lastN (st.history_window * 2) (st.history ++ ts₂)).length := by
          rw [← h]
      _ ≤ st.history_window * 2 := hle
      _ ≤ 2 * st.history_window := by omega

theorem claim_C5_history_sliding_window_witness :
    (appendTurns ⟨[], 1⟩
        [⟨"user", "a"⟩, ⟨"assistant", "b"⟩, ⟨"user", "c"⟩]).history =
      [⟨"assistant", "b"⟩, ⟨"user", "c"⟩] :=
  ((claim_C5_history_sliding_window 1 1
      [⟨"user", "a"⟩, ⟨"assistant", "b"⟩, ⟨"user", "c"⟩]
      (by decide) (by decide) (by decide)).1).trans rfl

/-- Outcome of one awaited external call that may raise: either its Python
return value or the message of the exception it raised. -/
inductive AdapterOutcome (α : Type) where
  | ok (value : α)
  | exn (message : String)
  deriving DecidableEq

/-- Outcome of the `aiohttp` GET inside `fetch_webpage_content`: a 200
response whose BeautifulSoup-extracted paragraph text is `paragraphText`
(empty when the page has no kept paragraphs), a non-200 status, or a raised
exception (network error, timeout, ...). -/
inductive FetchOutcome where
  | ok (paragraphText : String)
  | badStatus (code : Nat)
  | exn (message : String)
  deriving DecidableEq

/-- `WebSearchManager.fetch_webpage_content` (web_search_manager.py 20-48)
with the HTML parsing abstracted into `FetchOutcome`.  On a 200 response the
extracted text becomes `content[:2000] + "..."` when longer than 2000
characters; a non-200 status yields `"Could not fetch content (Status: c)"`
and a raised exception yields `"Error fetching content: e"`.  The function
itself never raises. -/
def fetch_webpage_content : FetchOutcome → String
  | .ok text =>
      if text.length > 2000 then String.mk (text.data.take 2000) ++ "..."
      else text
  | .badStatus code => "Could not fetch content (Status: " ++ toString code ++ ")"
  | .exn e => "Error fetching content: " ++ e

/-- One raw hit from the `ddgs` library, with `.get(key, '')` semantics: a
missing key is the empty string.  Text hits carry `title`/`body`/`href`;
news hits carry `title`/`body`/`url`. -/
structure SearchHit where
  title : String
  body : String
  href : String
  url : String
  deriving DecidableEq

/-- The detailed result built for the top hit of a sub-query in
`search_duckduckgo` (web_search_manager.py 183-191 and 202-210): deep-fetch
the page behind `href`; use the fetched string when it is non-empty (Python
truthiness of `detailed_content`), otherwise the `body` snippet. -/
def ddgDetailedResult (top : SearchHit) (fetch : String → FetchOutcome) :
    ScoredResult :=
  let detailed := fetch_webpage_content (fetch top.href)
  { title := top.title
    content := if detailed ≠ "" then detailed else top.body
    url := top.href
    source := "duckduckgo_web_detailed"
    score := 9/10 }

/-- Results built from `ddgs.text(query, max_results=5)`
(web_search_manager.py 181-199): detailed top hit, then hits 2-4
(`text_results[1:4]`) as lightweight snippets keyed on `href`. -/
def ddgTextResults (hits : List SearchHit) (fetch : String → FetchOutcome) :
    List ScoredResult :=
  match hits with
  | [] => []
  | top :: rest =>
      ddgDetailedResult top fetch ::
        (rest.take 3).map (fun r =>
          { title := r.title, content := r.body, url := r.href,
            source := "duckduckgo_web", score := 7/10 })

/-- Results built from `ddgs.news(query, max_results=3)`
(web_search_manager.py 200-218): detailed top hit (keyed on its `href`,
which news hits do not carry), then hits 2-4 (`news_results[1:4]`) as
lightweight snippets keyed on `url`. -/
def ddgNewsResults (hits : List SearchHit) (fetch : String → FetchOutcome) :
    List ScoredResult :=
  match hits with
  | [] => []
  | top :: rest =>
      ddgDetailedResult top fetch ::
        (rest.take 3).map (fun r =>
          { title := r.title, content := r.body, url := r.url,
            source := "duckduckgo_news", score := 7/10 })

/-- External behaviour feeding one `search_duckduckgo` call: the outcomes of
`ddgs.text(query, max_results=5)`, of `ddgs.news(query, max_results=3)` and
of the page fetch per url. -/
structure DdgEnv where
  textOutcome : AdapterOutcome (List SearchHit)
  newsOutcome : AdapterOutcome (List SearchHit)
  fetch : String → FetchOutcome

/-- Message of the `AttributeError` raised when the `except` branch of
`search_duckduckgo` (web_search_manager.py 223-225) evaluates
`self.fallback_manual_search`, a method the class never defines. -/
def attributeErrorMsg : String :=
  "AttributeError: \x27WebSearchManager\x27 object has no attribute \x27fallback_manual_search\x27"

/-- `WebSearchManager.search_duckduckgo` (web_search_manager.py 174-225).
When both library calls return, the result list is the text block followed
by the news block.  When either raises, the `except` branch runs
`return await self.fallback_manual_search(query)`; no such attribute exists,
so an `AttributeError` is raised and propagates out of the coroutine. -/
def search_duckduckgo (env : DdgEnv) : AdapterOutcome (List ScoredResult) :=
  match env.textOutcome, env.newsOutcome with
  | .ok ts, .ok ns =>
      .ok (ddgTextResults ts env.fetch ++ ddgNewsResults ns env.fetch)
  | _, _ => .exn attributeErrorMsg

/-- Python `query.replace(' ', '+')` (a single-character pattern, so a
character-wise map). -/
def plusForSpaces (query : String) : String :=
  String.mk (query.data.map (fun c => if c = ' ' then '+' else c))

/-- `WebSearchManager.fallback_duckduckgo_search` (web_search_manager.py
227-253).  The method exists on the class but is unreachable from
`search_duckduckgo`, whose `except` branch names `fallback_manual_search`.
On a successful HTML GET it returns a single placeholder result scored 0.5
pointing at a generic search url; if its own request raises it returns the
empty list. -/
def fallback_duckduckgo_search (query : String)
    (htmlFetch : AdapterOutcome String) : List ScoredResult :=
  match htmlFetch with
  | .ok _ =>
      [{ title := "Search: " ++ query
         content := "Web search results for \x27" ++ query ++ "\x27"
         url := "https://duckduckgo.com/?q=" ++ plusForSpaces query
         source := "duckduckgo_fallback"
         score := 1/2 }]
  | .exn _ => []

/-- `WebSearchManager.combined_web_search` (web_search_manager.py 255-279):
`asyncio.gather(..., return_exceptions=True)` turns a raised adapter
exception into a value, so a failing adapter contributes no results without
failing the aggregate call; the Wikipedia result (when truthy and not an
exception) comes first, then the DuckDuckGo results, and the concatenation
is deduplicated. -/
def combined_web_search (wiki : AdapterOutcome (Option ScoredResult))
    (ddg : AdapterOutcome (List ScoredResult)) : List ScoredResult :=
  let all₁ : List ScoredResult :=
    match wiki with
    | .ok (some r) => [r]
    | .ok none => []
    | .exn _ => []
  let all₂ : List ScoredResult :=
    match ddg with
    | .ok rs => rs
    | .exn _ => []
  deduplicate_results (all₁ ++ all₂)

theorem ne_empty_of_append_left (a b : String) (h : 0 < a.length) :
    a ++ b ≠ "" := by
  intro hc
  have hl := congrArg String.length hc
  rw [String.length_append] at hl
  have h0 : String.length "" = 0 := rfl
  omega

/-- C6: the aggregator returns the successful adapters' results concatenated
in fixed priority order (encyclopedia result, then the web adapter's text
results, then its news results), deduplicated; an adapter that raises
contributes nothing without failing the call; when every adapter fails or
returns empty the aggregate is the empty list. -/
theorem claim_C6_aggregator_order_and_failures (w : ScoredResult)
    (eW eD : String) (ts ns : List SearchHit) (f : String → FetchOutcome) :
    combined_web_search (.ok (some w)) (search_duckduckgo ⟨.ok ts, .ok ns, f⟩) =
      deduplicate_results (w :: (ddgTextResults ts f ++ ddgNewsResults ns f)) ∧
    combined_web_search (.exn eW) (search_duckduckgo ⟨.ok ts, .ok ns, f⟩) =
      deduplicate_results (ddgTextResults ts f ++ ddgNewsResults ns f) ∧
    combined_web_search (.ok (some w)) (.exn eD) = deduplicate_results [w] ∧
    combined_web_search (.ok none) (search_duckduckgo ⟨.exn eD, .ok ns, f⟩) = [] ∧
    combined_web_search (.exn eW) (.exn eD) = [] ∧
    combined_web_search (.ok none) (.ok []) = [] :=
  ⟨rfl, rfl, rfl, rfl, rfl, rfl⟩

/-- C7 counterexample: when the deep fetch of the top text hit raises, the
stored content is the diagnostic string `"Error fetching content: boom"`,
not the snippet `"snippet"` carried by the hit — the claimed snippet
fallback does not happen on the failure path. -/
theorem claim_C7_counterexample :
    search_duckduckgo
        ⟨.ok [{ title := "t", body := "snippet", href := "http://x", url := "" }],
         .ok [], fun _ => .exn "boom"⟩ =
      .ok [{ title := "t", content := "Error fetching content: boom",
             url := "http://x", source := "duckduckgo_web_detailed",
             score := 9/10 }] ∧
    "Error fetching content: boom" ≠ "snippet" :=
  ⟨rfl, by decide⟩

/-- C7 (amended): if the deep fetch fails (raised exception or non-200
status) the result's content is the non-empty diagnostic string produced by
`fetch_webpage_content`, not the snippet; the snippet is used exactly when
the fetch succeeds with empty extracted text; and with both library calls
returning, `search_duckduckgo` always returns a result list (never
raises). -/
theorem claim_C7_fetch_failure_diagnostic (top : SearchHit)
    (fetch : String → FetchOutcome) :
    (∀ e, fetch top.href = .exn e →
      (ddgDetailedResult top fetch).content = "Error fetching content: " ++ e) ∧
    (∀ c, fetch top.href = .badStatus c →
      (ddgDetailedResult top fetch).content =
        "Could not fetch content (Status: " ++ toString c ++ ")") ∧
    (fetch top.href = .ok "" →
      (ddgDetailedResult top fetch).content = top.body) ∧
    (∀ rest, (ddgTextResults (top :: rest) fetch).head? =
        some (ddgDetailedResult top fetch)) ∧
    (∀ rest, (ddgNewsResults (top :: rest) fetch).head? =
        some (ddgDetailedResult top fetch)) ∧
    (∀ ts ns f, ∃ rs,
      search_duckduckgo ⟨.ok ts, .ok ns, f⟩ = AdapterOutcome.ok rs) := by
  refine ⟨?_, ?_, ?_, fun rest => rfl, fun rest => rfl, fun ts ns f => ⟨_, rfl⟩⟩
  · intro e he
    show (if fetch_webpage_content (fetch top.href) ≠ "" then
        fetch_webpage_content (fetch top.href) else top.body) = _
    rw [he]
    have hne : fetch_webpage_content (.exn e) ≠ "" :=
      ne_empty_of_append_left "Error fetching content: " e (by decide)
    rw [if_pos hne]
    rfl
  · intro c hc
    show (if fetch_webpage_content (fetch top.href) ≠ "" then
        fetch_webpage_content (fetch top.href) else top.body) = _
    rw [hc]
    have h0 : 0 < ("Could not fetch content (Status: " ++ toString c).length := by
      rw [String.length_append]
      have h33 : ("Could not fetch content (Status: ").length = 33 := by decide
      omega
    have hne : fetch_webpage_content (.badStatus c) ≠ "" :=
      ne_empty_of_append_left ("Could not fetch content (Status: " ++ toString c)
        ")" h0
    rw [if_pos hne]
    rfl
  · intro he
    show (if fetch_webpage_content (fetch top.href) ≠ "" then
        fetch_webpage_content (fetch top.href) else top.body) = _
    rw [he]
    have hempty : fetch_webpage_content (.ok "") = "" := rfl
    rw [hempty]
    simp

theorem claim_C7_fetch_failure_diagnostic_witness :
    (ddgDetailedResult ⟨"t", "snippet", "http://x", ""⟩
        (fun _ => .exn "boom")).content = "Error fetching content: " ++ "boom" :=
  (claim_C7_fetch_failure_diagnostic ⟨"t", "snippet", "http://x", ""⟩
      (fun _ => .exn "boom")).1 "boom" rfl

/-- C8: when a `ddgs` library call raises, `search_duckduckgo` does not
return the documented 0.5-scored placeholder: its `except` branch names the
undefined method `fallback_manual_search`, so an `AttributeError` propagates
out of the adapter.  The method that would produce the placeholder,
`fallback_duckduckgo_search`, exists on the class (conjuncts four and five
evaluate it) but is never reached. -/
theorem claim_C8_stub_path_unreachable (q e : String) (ts ns : List SearchHit)
    (f : String → FetchOutcome) :
    search_duckduckgo ⟨.exn e, .ok ns, f⟩ = .exn attributeErrorMsg ∧
    search_duckduckgo ⟨.ok ts, .exn e, f⟩ = .exn attributeErrorMsg ∧
    search_duckduckgo ⟨.exn e, .exn e, f⟩ = .exn attributeErrorMsg ∧
    fallback_duckduckgo_search "python 3" (.ok "<html/>") =
      [{ title := "Search: python 3",
         content := "Web search results for \x27python 3\x27",
         url := "https://duckduckgo.com/?q=python+3",
         source := "duckduckgo_fallback", score := 1/2 }] ∧
    fallback_duckduckgo_search q (.exn e) = [] :=
  ⟨rfl, rfl, rfl, rfl, rfl⟩

/-- The 2001-character extracted text used to refute the 2000-character cap. -/
def c9LongText : String := String.mk (List.replicate 2001 'a')

/-- C9 counterexample: a successfully fetched page whose extracted paragraph
text has 2001 characters produces a stored content of 2003 characters
(`content[:2000] + "..."`), exceeding the claimed 2000-character cap. -/
theorem claim_C9_counterexample :
    (fetch_webpage_content (.ok c9LongText)).length = 2003 ∧
    ¬ ((fetch_webpage_content (.ok c9LongText)).length ≤ 2000) := by
  have hdata : c9LongText.data.length = 2001 := by
    show (List.replicate 2001 'a').length = 2001
    exact List.length_replicate 2001 'a'
  have hlen : c9LongText.length = 2001 := hdata
  have h : (fetch_webpage_content (.ok c9LongText)).length = 2003 := by
    show (if c9LongText.length > 2000 then
        String.mk (c9LongText.data.take 2000) ++ "..." else c9LongText).length = 2003
    rw [if_pos (by rw [hlen]; omega)]
    rw [String.length_append]
    have htake : (String.mk (c9LongText.data.take 2000)).length = 2000 := by
      show (c9LongText.data.take 2000).length = 2000
      rw [List.length_take]
      omega
    rw [htake]
    rfl
  exact ⟨h, by rw [h]; omega⟩

/-- C9 (amended): the extracted paragraph text itself is capped at 2000
characters, and when truncation occurs a three-character ellipsis is
appended, so the stored content is the text unchanged when it fits and is
exactly 2003 characters (2000 text characters plus `"..."`) when it was
longer. -/
theorem claim_C9_content_cap (text : String) :
    (text.length ≤ 2000 → fetch_webpage_content (.ok text) = text) ∧
    (2000 < text.length →
      fetch_webpage_content (.ok text) =
          String.mk (text.data.take 2000) ++ "..." ∧
      (String.mk (text.data.take 2000)).length = 2000 ∧
      (fetch_webpage_content (.ok text)).length = 2003) := by
  have hdl : text.data.length = text.length := rfl
  constructor
  · intro h
    show (if text.length > 2000 then
        String.mk (text.data.take 2000) ++ "..." else text) = text
    rw [if_neg (by omega)]
  · intro h
    have htake : (String.mk (text.data.take 2000)).length = 2000 := by
      show (text.data.take 2000).length = 2000
      rw [List.length_take]
      omega
    have heq : fetch_webpage_content (.ok text) =
        String.mk (text.data.take 2000) ++ "..." := by
      show (if text.length > 2000 then
          String.mk (text.data.take 2000) ++ "..." else text) = _
      rw [if_pos (by omega)]
    refine ⟨heq, htake, ?_⟩
    rw [heq, String.length_append, htake]
    rfl

theorem claim_C9_content_cap_witness :
    fetch_webpage_content (.ok "ab") = "ab" :=
  (claim_C9_content_cap "ab").1 (by decide)

/-- Python `s.upper()` for the ASCII strings used by the endpoint
(character-wise upper-casing). -/
def pyUpper (s : String) : String := String.mk (s.data.map Char.toUpper)

/-- Python `s.replace('_', ' ')` (single-character pattern, so a
character-wise map). -/
def pyUnderscoreToSpace (s : String) : String :=
  String.mk (s.data.map (fun c => if c = '_' then ' ' else c))

/-- Lines accumulated by `format_web_context` (fetch_web_context.py 9-19):
for each of the first three results (1-based numbering), a headline with the
source display name, an indented URL line when the url is non-empty, and a
blank separator entry. -/
def webContextLines : Nat → List ScoredResult → List String
  | _, [] => []
  | i, r :: rs =>
      let source_display := pyUnderscoreToSpace (pyUpper r.source)
      let l1 := toString i ++ ". [" ++ source_display ++ "] " ++ r.title ++ "\n"
      (if r.url ≠ "" then [l1, "   URL: " ++ r.url, ""] else [l1, ""])
        ++ webContextLines (i + 1) rs

/-- `format_web_context` (fetch_web_context.py 4-20). -/
def format_web_context (web_results : List ScoredResult) : String :=
  if web_results = [] then ""
  else String.intercalate "\n" (webContextLines 1 (web_results.take 3))

/-- Python `s.split(sep)` for a non-empty separator: left-to-right,
non-overlapping.  The fuel argument (always at least `s.length + 1` at the
root call) makes the recursion structural. -/
def pySplitAux (sep : List Char) : Nat → List Char → List Char → List (List Char)
  | 0, acc, s => [acc.reverse ++ s]
  | fuel + 1, acc, s =>
    match s with
    | [] => [acc.reverse]
    | c :: cs =>
      if sep.isPrefixOf (c :: cs) then
        acc.reverse :: pySplitAux sep fuel [] ((c :: cs).drop sep.length)
      else
        pySplitAux sep fuel (c :: acc) cs

/-- Python `s.split(sep)` (non-empty `sep`). -/
def pySplit (sep s : List Char) : List (List Char) :=
  pySplitAux sep (s.length + 1) [] s

/-- External behaviour feeding one `/chat/` request: the vector index call
`vector_store.search_similar(message, limit)`, the awaited
`combined_web_search` call (its value, or the exception caught at
main.py 142), and the generation engine behind the LangChain chains
(per message, mode and context: the generated text, or the exception that
`generate_response` catches itself). -/
structure ChatEnv where
  ragSearch : String → Nat → List ScoredResult
  webCall : Except String (List ScoredResult)
  gen : String → String → Option (List ScoredResult) → Except String String

/-- Value produced by one `LLMChat.generate_response` call: the returned
text, the session state it leaves behind, and (ghost field, for stating
history properties) the raw engine output when the engine call succeeded. -/
structure GenResult where
  text : String
  st : LLMChatState
  genOut : Option String

/-- `LLMChat.generate_response` (llm_chat.py 128-153): invoke the chain for
the mode; on success append the user turn then the assistant turn through
`_update_history` and return the raw output; if the chain raises, return the
error text without touching the history. -/
def generate_response (st : LLMChatState)
    (gen : String → String → Option (List ScoredResult) → Except String String)
    (message : String) (context : Option (List ScoredResult)) (mode : String) :
    GenResult :=
  match gen message mode context with
  | .ok output =>
      let st1 := update_history st "user" message
      let st2 := update_history st1 "assistant" output
      { text := output, st := st2, genOut := some output }
  | .error e =>
      { text := "❌ Error generating response: " ++ e, st := st, genOut := none }

/-- The local variables threaded through the three mode blocks of the
`/chat/` handler (main.py 93-104), plus the session state and the ghost
record of the last successful engine output. -/
structure ChatVars where
  sources : List ScoredResult
  web_context : String
  reasoning : String
  fallback_used : Bool
  response : String
  mode_used : String
  st : LLMChatState
  lastGenerated : Option String

/-- Initial variable values (main.py 93-104): everything empty,
`fallback_used = False`, `mode_used = chat_mode`. -/
def initVars (chat_mode : String) (st : LLMChatState) : ChatVars :=
  { sources := [], web_context := "", reasoning := "", fallback_used := false,
    response := "", mode_used := chat_mode, st := st, lastGenerated := none }

/-- The RAG acceptance test of main.py 112:
`sources and any(source.get('score', 0) > 0.3 for source in sources)`. -/
def ragAccepts (sources : List ScoredResult) : Bool :=
  !sources.isEmpty && sources.any (fun s => decide ((3 : ℚ)/10 < s.score))

/-- The RAG block (main.py 110-118). -/
def ragBlock (env : ChatEnv) (message chat_mode : String) (v : ChatVars) :
    ChatVars :=
  if chat_mode = "rag" then
    let sources := env.ragSearch message 3
    if ragAccepts sources then
      let g := generate_response v.st env.gen message (some sources) "rag"
      { v with sources := sources, response := g.text, st := g.st,
               lastGenerated := g.genOut }
    else
      { v with sources := sources, fallback_used := true, mode_used := "web" }
  else v

/-- The web block (main.py 123-145): entered when the requested mode is
`web` or the RAG block fell back; an exception from the awaited web search
is caught and treated like an empty result list (fallback to deep). -/
def webBlock (env : ChatEnv) (message chat_mode : String) (v : ChatVars) :
    ChatVars :=
  if chat_mode = "web" ∨ (v.fallback_used ∧ v.mode_used = "web") then
    match env.webCall with
    | .ok web_results =>
        if web_results ≠ [] then
          let g := generate_response v.st env.gen message (some web_results) "web"
          { v with web_context := format_web_context web_results,
                   response := g.text, st := g.st, lastGenerated := g.genOut }
        else
          { v with fallback_used := true, mode_used := "deep" }
    | .error _ => { v with fallback_used := true, mode_used := "deep" }
  else v

/-- The note prefixed at main.py 157 when the deep block was reached through
a fallback. -/
def fallbackNote : String :=
  "🔍 Note: I couldn\x27t find specific information in my knowledge base, so I\x27m providing a general analysis:\n\n"

/-- The extraction at main.py 155: keep only the part after the last
`"Final Response:"` marker when the marker occurs in the generated text
(`reasoning_response.split("Final Response:")[-1]`). -/
def deepResponseText (t : String) : String :=
  let parts := pySplit ("Final Response:".data) t.data
  if parts.length > 1 then String.mk (parts.getLastD []) else t

/-- The deep block (main.py 150-157): always generates; keeps only the part
after the last `"Final Response:"` marker when present; prefixes the
fallback note when reached through a fallback from another requested
mode. -/
def deepBlock (env : ChatEnv) (message chat_mode original_mode : String)
    (v : ChatVars) : ChatVars :=
  if chat_mode = "deep" ∨ (v.fallback_used ∧ v.mode_used = "deep") then
    let g := generate_response v.st env.gen message none "deep"
    let response := deepResponseText g.text
    let response :=
      if v.fallback_used ∧ original_mode ≠ "deep" then fallbackNote ++ response
      else response
    { v with
        reasoning :=
          "Engaging in comprehensive analysis without external data sources...\n",
        response := response, st := g.st, lastGenerated := g.genOut }
  else v

/-- The Pydantic `ChatResponse` model of main.py 48-57 (the `success` and
`error_message` fields keep their defaults on every path of the handler). -/
structure ChatResponse where
  response : String
  sources : List ScoredResult
  web_context : String
  reasoning : String
  mode_used : String
  fallback_used : Bool
  original_mode : String
  success : Bool := true
  error_message : String := ""

/-- The `ChatResponse(...)` construction at main.py 161-169: `sources` only
when `mode_used == "rag"`, `web_context` only when `mode_used == "web"`,
`reasoning` only when `mode_used == "deep"`. -/
def mkChatResponse (response : String) (sources : List ScoredResult)
    (web_context reasoning mode_used : String) (fallback_used : Bool)
    (original_mode : String) : ChatResponse :=
  { response := response
    sources := if mode_used = "rag" then sources else []
    web_context := if mode_used = "web" then web_context else ""
    reasoning := if mode_used = "deep" then reasoning else ""
    mode_used := mode_used
    fallback_used := fallback_used
    original_mode := original_mode }

/-- The fallback disclosure appended at main.py 170-176. -/
def fallbackSuffix (mode_used original_mode : String) : String :=
  "\n\n⚠️ Note: I used " ++ pyUpper mode_used ++ " mode instead of "
    ++ pyUpper original_mode ++ " because "
    ++ (if original_mode = "rag" then
          "I couldn\x27t find relevant information in my knowledge base."
        else if original_mode = "web" then
          "I couldn\x27t find web results for your query."
        else "")

/-- Building the final `ChatResponse` (main.py 161-176): the mode-gated
field construction, then the fallback disclosure appended to the response
text only. -/
def finalizeResponse (v : ChatVars) (original_mode : String) : ChatResponse :=
  let result := mkChatResponse v.response v.sources v.web_context v.reasoning
    v.mode_used v.fallback_used original_mode
  if v.fallback_used ∧ original_mode ≠ v.mode_used then
    { result with
        response := result.response ++ fallbackSuffix v.mode_used original_mode }
  else result

/-- The mode normalization of main.py 99-101: an invalid `chat_mode` is
silently replaced by `"rag"` (while `original_mode` keeps the raw value). -/
def normalizeMode (m : String) : String :=
  if m = "rag" ∨ m = "web" ∨ m = "deep" then m else "rag"

/-- The three mode blocks run in order (main.py 106-157) from the initial
variable state. -/
def blocksRun (env : ChatEnv) (message chat_mode original_mode : String)
    (st : LLMChatState) : ChatVars :=
  deepBlock env message chat_mode original_mode
    (webBlock env message chat_mode
      (ragBlock env message chat_mode (initVars chat_mode st)))

/-- The variable state after the three mode blocks of one `/chat/` request
(main.py 97-157). -/
def chatVars (env : ChatEnv) (st : LLMChatState)
    (message chat_mode_req : String) : ChatVars :=
  blocksRun env message (normalizeMode chat_mode_req) chat_mode_req st

/-- Result of one `/chat/` request: the HTTP response model, the session
state left behind, and the ghost record of the successful engine output. -/
structure ChatOutcome where
  resp : ChatResponse
  st : LLMChatState
  lastGenerated : Option String

/-- The `/chat/` endpoint body (main.py 84-178) for one request. -/
def chat (env : ChatEnv) (st : LLMChatState)
    (message chat_mode_req : String) : ChatOutcome :=
  let v := chatVars env st message chat_mode_req
  { resp := finalizeResponse v chat_mode_req, st := v.st,
    lastGenerated := v.lastGenerated }

theorem update_history_eq (st : LLMChatState) (role content : String)
    (hw : 1 ≤ st.history_window) :
    update_history st role content =
      ⟨lastN (st.history_window * 2) (st.history ++ [⟨role, content⟩]),
       st.history_window⟩ := by
  cases st with
  | mk h w => exact update_history_mk h w role content hw

theorem generate_response_ok (st : LLMChatState)
    (gen : String → String → Option (List ScoredResult) → Except String String)
    (message : String) (context : Option (List ScoredResult)) (mode out : String)
    (hw : 1 ≤ st.history_window) (hg : gen message mode context = .ok out) :
    generate_response st gen message context mode =
      { text := out,
        st := ⟨lastN (st.history_window * 2)
            (st.history ++ [⟨"user", message⟩, ⟨"assistant", out⟩]),
          st.history_window⟩,
        genOut := some out } := by
  unfold generate_response
  rw [hg]
  dsimp only
  rw [update_history_eq st "user" message hw]
  rw [update_history_eq
    ⟨lastN (st.history_window * 2)
        (st.history ++ [(⟨"user", message⟩ : Turn)]),
     st.history_window⟩ "assistant" out hw]
  dsimp only
  rw [lastN_append_lastN]
  have hl : (st.history ++ [(⟨"user", message⟩ : Turn)])
      ++ [(⟨"assistant", out⟩ : Turn)] =
      st.history ++ [⟨"user", message⟩, ⟨"assistant", out⟩] := by simp
  rw [hl]

theorem generate_response_err (st : LLMChatState)
    (gen : String → String → Option (List ScoredResult) → Except String String)
    (message : String) (context : Option (List ScoredResult)) (mode e : String)
    (hg : gen message mode context = .error e) :
    generate_response st gen message context mode =
      { text := "❌ Error generating response: " ++ e, st := st,
        genOut := none } := by
  unfold generate_response
  rw [hg]

theorem generate_response_history (st : LLMChatState)
    (gen : String → String → Option (List ScoredResult) → Except String String)
    (message : String) (context : Option (List ScoredResult)) (mode : String)
    (hw : 1 ≤ st.history_window) :
    (∀ out, (generate_response st gen message context mode).genOut = some out →
      (generate_response st gen message context mode).st.history =
        lastN (st.history_window * 2)
          (st.history ++ [⟨"user", message⟩, ⟨"assistant", out⟩])) ∧
    ((generate_response st gen message context mode).genOut = none →
      (generate_response st gen message context mode).st.history = st.history) := by
  cases hg : gen message mode context with
  | ok out' =>
    rw [generate_response_ok st gen message context mode out' hw hg]
    constructor
    · intro out hsome
      have : out' = out := by simpa using hsome
      subst this
      rfl
    · intro h
      simp at h
  | error e =>
    rw [generate_response_err st gen message context mode e hg]
    exact ⟨fun out h => by simp at h, fun _ => rfl⟩

theorem ragBlock_skip (env : ChatEnv) (message cm : String) (v : ChatVars)
    (h : cm ≠ "rag") : ragBlock env message cm v = v := by
  unfold ragBlock
  rw [if_neg h]

theorem webBlock_skip (env : ChatEnv) (message cm : String) (v : ChatVars)
    (h : ¬ (cm = "web" ∨ (v.fallback_used ∧ v.mode_used = "web"))) :
    webBlock env message cm v = v := by
  unfold webBlock
  rw [if_neg h]

theorem deepBlock_skip (env : ChatEnv) (message cm om : String) (v : ChatVars)
    (h : ¬ (cm = "deep" ∨ (v.fallback_used ∧ v.mode_used = "deep"))) :
    deepBlock env message cm om v = v := by
  unfold deepBlock
  rw [if_neg h]

theorem ragAccepts_iff (sources : List ScoredResult) :
    ragAccepts sources = true ↔ ∃ s ∈ sources, (3 : ℚ)/10 < s.score := by
  unfold ragAccepts
  rw [Bool.and_eq_true, List.any_eq_true]
  constructor
  · rintro ⟨-, s, hs, hd⟩
    exact ⟨s, hs, of_decide_eq_true hd⟩
  · rintro ⟨s, hs, hlt⟩
    refine ⟨?_, s, hs, decide_eq_true hlt⟩
    simp only [Bool.not_eq_true', List.isEmpty_eq_false]
    exact List.ne_nil_of_mem hs

theorem blocksRun_rag_accept (env : ChatEnv) (st : LLMChatState)
    (message om : String)
    (hacc : ragAccepts (env.ragSearch message 3) = true) :
    (blocksRun env message "rag" om st).mode_used = "rag" ∧
    (blocksRun env message "rag" om st).fallback_used = false ∧
    (blocksRun env message "rag" om st).st =
      (generate_response st env.gen message
        (some (env.ragSearch message 3)) "rag").st ∧
    (blocksRun env message "rag" om st).lastGenerated =
      (generate_response st env.gen message
        (some (env.ragSearch message 3)) "rag").genOut := by
  unfold blocksRun ragBlock webBlock deepBlock initVars
  simp [hacc]

theorem blocksRun_rag_reject_web_some (env : ChatEnv) (st : LLMChatState)
    (message om : String) (ws : List ScoredResult)
    (hacc : ragAccepts (env.ragSearch message 3) = false)
    (hwc : env.webCall = .ok ws) (hne : ws ≠ []) :
    (blocksRun env message "rag" om st).mode_used = "web" ∧
    (blocksRun env message "rag" om st).fallback_used = true ∧
    (blocksRun env message "rag" om st).st =
      (generate_response st env.gen message (some ws) "web").st ∧
    (blocksRun env message "rag" om st).lastGenerated =
      (generate_response st env.gen message (some ws) "web").genOut := by
  unfold blocksRun ragBlock webBlock deepBlock initVars
  simp [hacc, hwc, hne]

theorem blocksRun_rag_reject_web_nil (env : ChatEnv) (st : LLMChatState)
    (message om : String)
    (hacc : ragAccepts (env.ragSearch message 3) = false)
    (hwc : env.webCall = .ok []) :
    (blocksRun env message "rag" om st).mode_used = "deep" ∧
    (blocksRun env message "rag" om st).fallback_used = true ∧
    (blocksRun env message "rag" om st).st =
      (generate_response st env.gen message none "deep").st ∧
    (blocksRun env message "rag" om st).lastGenerated =
      (generate_response st env.gen message none "deep").genOut := by
  unfold blocksRun ragBlock webBlock deepBlock initVars
  simp [hacc, hwc]

theorem blocksRun_rag_reject_web_err (env : ChatEnv) (st : LLMChatState)
    (message om e : String)
    (hacc : ragAccepts (env.ragSearch message 3) = false)
    (hwc : env.webCall = .error e) :
    (blocksRun env message "rag" om st).mode_used = "deep" ∧
    (blocksRun env message "rag" om st).fallback_used = true ∧
    (blocksRun env message "rag" om st).st =
      (generate_response st env.gen message none "deep").st ∧
    (blocksRun env message "rag" om st).lastGenerated =
      (generate_response st env.gen message none "deep").genOut := by
  unfold blocksRun ragBlock webBlock deepBlock initVars
  simp [hacc, hwc]

theorem blocksRun_web_some (env : ChatEnv) (st : LLMChatState)
    (message om : String) (ws : List ScoredResult)
    (hwc : env.webCall = .ok ws) (hne : ws ≠ []) :
    (blocksRun env message "web" om st).mode_used = "web" ∧
    (blocksRun env message "web" om st).fallback_used = false ∧
    (blocksRun env message "web" om st).st =
      (generate_response st env.gen message (some ws) "web").st ∧
    (blocksRun env message "web" om st).lastGenerated =
      (generate_response st env.gen message (some ws) "web").genOut := by
  unfold blocksRun ragBlock webBlock deepBlock initVars
  simp [hwc, hne]

theorem blocksRun_web_nil (env : ChatEnv) (st : LLMChatState)
    (message om : String) (hwc : env.webCall = .ok []) :
    (blocksRun env message "web" om st).mode_used = "deep" ∧
    (blocksRun env message "web" om st).fallback_used = true ∧
    (blocksRun env message "web" om st).st =
      (generate_response st env.gen message none "deep").st ∧
    (blocksRun env message "web" om st).lastGenerated =
      (generate_response st env.gen message none "deep").genOut := by
  unfold blocksRun ragBlock webBlock deepBlock initVars
  simp [hwc]

theorem blocksRun_web_err (env : ChatEnv) (st : LLMChatState)
    (message om e : String) (hwc : env.webCall = .error e) :
    (blocksRun env message "web" om st).mode_used = "deep" ∧
    (blocksRun env message "web" om st).fallback_used = true ∧
    (blocksRun env message "web" om st).st =
      (generate_response st env.gen message none "deep").st ∧
    (blocksRun env message "web" om st).lastGenerated =
      (generate_response st env.gen message none "deep").genOut := by
  unfold blocksRun ragBlock webBlock deepBlock initVars
  simp [hwc]

theorem blocksRun_deep (env : ChatEnv) (st : LLMChatState)
    (message om : String) :
    (blocksRun env message "deep" om st).mode_used = "deep" ∧
    (blocksRun env message "deep" om st).fallback_used = false ∧
    (blocksRun env message "deep" om st).st =
      (generate_response st env.gen message none "deep").st ∧
    (blocksRun env message "deep" om st).lastGenerated =
      (generate_response st env.gen message none "deep").genOut := by
  unfold blocksRun ragBlock webBlock deepBlock initVars
  simp

theorem finalizeResponse_fields (v : ChatVars) (om : String) :
    (finalizeResponse v om).mode_used = v.mode_used ∧
    (finalizeResponse v om).fallback_used = v.fallback_used ∧
    (finalizeResponse v om).sources =
      (if v.mode_used = "rag" then v.sources else []) ∧
    (finalizeResponse v om).web_context =
      (if v.mode_used = "web" then v.web_context else "") ∧
    (finalizeResponse v om).reasoning =
      (if v.mode_used = "deep" then v.reasoning else "") := by
  unfold finalizeResponse mkChatResponse
  dsimp only
  refine ⟨?_, ?_, ?_, ?_, ?_⟩ <;> split <;> rfl

/-- C4: in the response built by the handler, `sources` can be non-empty
only when `mode_used = "rag"`, `web_context` only when `mode_used = "web"`,
and `reasoning` only when `mode_used = "deep"`; in every other mode
(including `"error"`) the constructor at main.py 161-169 empties them.  The
first three conjuncts state this for every request outcome of the cascade,
the last three for the response constructor at an arbitrary `mode_used`. -/
theorem claim_C4_mode_gated_fields (env : ChatEnv) (st : LLMChatState)
    (message mode response : String) (sources : List ScoredResult)
    (web_context reasoning mode_used : String) (fallback_used : Bool)
    (original_mode : String) :
    ((chat env st message mode).resp.mode_used ≠ "rag" →
      (chat env st message mode).resp.sources = []) ∧
    ((chat env st message mode).resp.mode_used ≠ "web" →
      (chat env st message mode).resp.web_context = "") ∧
    ((chat env st message mode).resp.mode_used ≠ "deep" →
      (chat env st message mode).resp.reasoning = "") ∧
    (mode_used ≠ "rag" →
      (mkChatResponse response sources web_context reasoning mode_used
        fallback_used original_mode).sources = []) ∧
    (mode_used ≠ "web" →
      (mkChatResponse response sources web_context reasoning mode_used
        fallback_used original_mode).web_context = "") ∧
    (mode_used ≠ "deep" →
      (mkChatResponse response sources web_context reasoning mode_used
        fallback_used original_mode).reasoning = "") := by
  have hresp : (chat env st message mode).resp =
      finalizeResponse (chatVars env st message mode) mode := rfl
  obtain ⟨hm, -, hs, hwc, hr⟩ :=
    finalizeResponse_fields (chatVars env st message mode) mode
  refine ⟨?_, ?_, ?_, ?_, ?_, ?_⟩
  · intro h
    rw [hresp] at h ⊢
    rw [hm] at h
    rw [hs, if_neg h]
  · intro h
    rw [hresp] at h ⊢
    rw [hm] at h
    rw [hwc, if_neg h]
  · intro h
    rw [hresp] at h ⊢
    rw [hm] at h
    rw [hr, if_neg h]
  · intro h
    simp [mkChatResponse, h]
  · intro h
    simp [mkChatResponse, h]
  · intro h
    simp [mkChatResponse, h]

/-- C1: in the RAG state the handler calls the vector index with
`limit = 3`; it stays in RAG (and completes there) iff at least one returned
result has score strictly above 0.3, and otherwise sets
`fallback_used = True` and moves to the web state.  In particular any result
list whose scores are all at most 0.30 triggers the fallback, and any list
containing a result scored 0.31 does not. -/
theorem claim_C1_rag_threshold (env : ChatEnv) (st : LLMChatState)
    (message : String) :
    ((∃ s ∈ env.ragSearch message 3, (3 : ℚ)/10 < s.score) ↔
      ((ragBlock env message "rag" (initVars "rag" st)).mode_used = "rag" ∧
       (ragBlock env message "rag" (initVars "rag" st)).fallback_used = false)) ∧
    (¬ (∃ s ∈ env.ragSearch message 3, (3 : ℚ)/10 < s.score) →
      ((ragBlock env message "rag" (initVars "rag" st)).mode_used = "web" ∧
       (ragBlock env message "rag" (initVars "rag" st)).fallback_used = true)) ∧
    ((∀ s ∈ env.ragSearch message 3, s.score ≤ (3 : ℚ)/10) →
      (chat env st message "rag").resp.fallback_used = true ∧
      (chat env st message "rag").resp.mode_used ≠ "rag") ∧
    ((∃ s ∈ env.ragSearch message 3, s.score = (31 : ℚ)/100) →
      (chat env st message "rag").resp.fallback_used = false ∧
      (chat env st message "rag").resp.mode_used = "rag") := by
  have hvars : chatVars env st message "rag" =
      blocksRun env message "rag" "rag" st := rfl
  have hresp : (chat env st message "rag").resp =
      finalizeResponse (chatVars env st message "rag") "rag" := rfl
  obtain ⟨hm, hfb, -, -, -⟩ :=
    finalizeResponse_fields (chatVars env st message "rag") "rag"
  have hreject : ragAccepts (env.ragSearch message 3) = false →
      (chat env st message "rag").resp.fallback_used = true ∧
      (chat env st message "rag").resp.mode_used ≠ "rag" := by
    intro hacc
    cases hwc : env.webCall with
    | ok ws =>
      by_cases hne : ws = []
      · subst hne
        obtain ⟨h1, h2, -, -⟩ :=
          blocksRun_rag_reject_web_nil env st message "rag" hacc hwc
        rw [hresp, hfb, hm, hvars, h1, h2]
        exact ⟨rfl, by decide⟩
      · obtain ⟨h1, h2, -, -⟩ :=
          blocksRun_rag_reject_web_some env st message "rag" ws hacc hwc hne
        rw [hresp, hfb, hm, hvars, h1, h2]
        exact ⟨rfl, by decide⟩
    | error e =>
      obtain ⟨h1, h2, -, -⟩ :=
        blocksRun_rag_reject_web_err env st message "rag" e hacc hwc
      rw [hresp, hfb, hm, hvars, h1, h2]
      exact ⟨rfl, by decide⟩
  have haccept : ragAccepts (env.ragSearch message 3) = true →
      (chat env st message "rag").resp.fallback_used = false ∧
      (chat env st message "rag").resp.mode_used = "rag" := by
    intro hacc
    obtain ⟨h1, h2, -, -⟩ := blocksRun_rag_accept env st message "rag" hacc
    rw [hresp, hfb, hm, hvars, h1, h2]
    exact ⟨rfl, rfl⟩
  refine ⟨?_, ?_, ?_, ?_⟩
  · constructor
    · intro hex
      have hacc := (ragAccepts_iff (env.ragSearch message 3)).mpr hex
      unfold ragBlock initVars
      simp [hacc]
    · intro ⟨h1, _⟩
      by_contra hnex
      have hacc : ragAccepts (env.ragSearch message 3) = false := by
        cases hb : ragAccepts (env.ragSearch message 3) with
        | false => rfl
        | true => exact absurd ((ragAccepts_iff _).mp hb) hnex
      have : (ragBlock env message "rag" (initVars "rag" st)).mode_used
          = "web" := by
        unfold ragBlock initVars
        simp [hacc]
      rw [this] at h1
      exact absurd h1 (by decide)
  · intro hnex
    have hacc : ragAccepts (env.ragSearch message 3) = false := by
      cases hb : ragAccepts (env.ragSearch message 3) with
      | false => rfl
      | true => exact absurd ((ragAccepts_iff _).mp hb) hnex
    unfold ragBlock initVars
    simp [hacc]
  · intro hall
    apply hreject
    cases hb : ragAccepts (env.ragSearch message 3) with
    | false => rfl
    | true =>
      obtain ⟨s, hs, hlt⟩ := (ragAccepts_iff _).mp hb
      exact absurd (hall s hs) (not_le.mpr hlt)
  · intro ⟨s, hs, heq⟩
    apply haccept
    apply (ragAccepts_iff _).mpr
    exact ⟨s, hs, by rw [heq]; norm_num⟩

theorem blocksRun_rag_histories (env : ChatEnv) (st : LLMChatState)
    (message om : String) (hw1 : 1 ≤ st.history_window) :
    (∀ out, (blocksRun env message "rag" om st).lastGenerated = some out →
      (blocksRun env message "rag" om st).st.history =
        lastN (st.history_window * 2)
          (st.history ++ [⟨"user", message⟩, ⟨"assistant", out⟩])) ∧
    ((blocksRun env message "rag" om st).lastGenerated = none →
      (blocksRun env message "rag" om st).st.history = st.history) := by
  by_cases hacc : ragAccepts (env.ragSearch message 3) = true
  · obtain ⟨-, -, hst, hlg⟩ := blocksRun_rag_accept env st message om hacc
    rw [hst, hlg]
    exact generate_response_history st env.gen message
      (some (env.ragSearch message 3)) "rag" hw1
  · have hacc' : ragAccepts (env.ragSearch message 3) = false := by
      cases hb : ragAccepts (env.ragSearch message 3) with
      | false => rfl
      | true => exact absurd hb hacc
    cases hwc : env.webCall with
    | ok ws =>
      by_cases hne : ws = []
      · subst hne
        obtain ⟨-, -, hst, hlg⟩ :=
          blocksRun_rag_reject_web_nil env st message om hacc' hwc
        rw [hst, hlg]
        exact generate_response_history st env.gen message none "deep" hw1
      · obtain ⟨-, -, hst, hlg⟩ :=
          blocksRun_rag_reject_web_some env st message om ws hacc' hwc hne
        rw [hst, hlg]
        exact generate_response_history st env.gen message (some ws) "web" hw1
    | error e =>
      obtain ⟨-, -, hst, hlg⟩ :=
        blocksRun_rag_reject_web_err env st message om e hacc' hwc
      rw [hst, hlg]
      exact generate_response_history st env.gen message none "deep" hw1

theorem blocksRun_web_histories (env : ChatEnv) (st : LLMChatState)
    (message om : String) (hw1 : 1 ≤ st.history_window) :
    (∀ out, (blocksRun env message "web" om st).lastGenerated = some out →
      (blocksRun env message "web" om st).st.history =
        lastN (st.history_window * 2)
          (st.history ++ [⟨"user", message⟩, ⟨"assistant", out⟩])) ∧
    ((blocksRun env message "web" om st).lastGenerated = none →
      (blocksRun env message "web" om st).st.history = st.history) := by
  cases hwc : env.webCall with
  | ok ws =>
    by_cases hne : ws = []
    · subst hne
      obtain ⟨-, -, hst, hlg⟩ := blocksRun_web_nil env st message om hwc
      rw [hst, hlg]
      exact generate_response_history st env.gen message none "deep" hw1
    · obtain ⟨-, -, hst, hlg⟩ := blocksRun_web_some env st message om ws hwc hne
      rw [hst, hlg]
      exact generate_response_history st env.gen message (some ws) "web" hw1
  | error e =>
    obtain ⟨-, -, hst, hlg⟩ := blocksRun_web_err env st message om e hwc
    rw [hst, hlg]
    exact generate_response_history st env.gen message none "deep" hw1

theorem blocksRun_deep_histories (env : ChatEnv) (st : LLMChatState)
    (message om : String) (hw1 : 1 ≤ st.history_window) :
    (∀ out, (blocksRun env message "deep" om st).lastGenerated = some out →
      (blocksRun env message "deep" om st).st.history =
        lastN (st.history_window * 2)
          (st.history ++ [⟨"user", message⟩, ⟨"assistant", out⟩])) ∧
    ((blocksRun env message "deep" om st).lastGenerated = none →
      (blocksRun env message "deep" om st).st.history = st.history) := by
  obtain ⟨-, -, hst, hlg⟩ := blocksRun_deep env st message om
  rw [hst, hlg]
  exact generate_response_history st env.gen message none "deep" hw1

/-- C10 (amended): per request in which the generation engine returns,
exactly one user turn and then one assistant turn are appended to the
session (windowed), even on the fallback path; the assistant turn stores the
raw text returned by the single generation call of the executed mode.  The
deep-mode marker extraction and the fallback disclosures are applied only to
the response sent to the caller, not to the stored history.  If the engine
call raises, `generate_response` returns its error text and the history is
unchanged.  (Every session the program creates has `history_window = 5`;
the theorem needs only `history_window ≥ 1`.) -/
theorem claim_C10_single_turn_pair (env : ChatEnv) (st : LLMChatState)
    (message m : String) (hw1 : 1 ≤ st.history_window) :
    (∀ out, (chat env st message m).lastGenerated = some out →
      (chat env st message m).st.history =
        lastN (st.history_window * 2)
          (st.history ++ [⟨"user", message⟩, ⟨"assistant", out⟩])) ∧
    ((chat env st message m).lastGenerated = none →
      (chat env st message m).st.history = st.history) := by
  have h1 : (chat env st message m).st = (chatVars env st message m).st := rfl
  have h2 : (chat env st message m).lastGenerated =
      (chatVars env st message m).lastGenerated := rfl
  rw [h1, h2]
  have hv : chatVars env st message m =
      blocksRun env message (normalizeMode m) m st := rfl
  rw [hv]
  by_cases hm : m = "rag" ∨ m = "web" ∨ m = "deep"
  · have hnm : normalizeMode m = m := by
      unfold normalizeMode
      rw [if_pos hm]
    rw [hnm]
    rcases hm with hm | hm | hm <;> subst hm
    · exact blocksRun_rag_histories env st message "rag" hw1
    · exact blocksRun_web_histories env st message "web" hw1
    · exact blocksRun_deep_histories env st message "deep" hw1
  · have hnm : normalizeMode m = "rag" := by
      unfold normalizeMode
      rw [if_neg hm]
    rw [hnm]
    exact blocksRun_rag_histories env st message m hw1

/-- Environment used for the C10 counterexample and several witnesses:
an empty vector index, an empty web search, and an engine that always
answers `"hello"`. -/
def c10Env : ChatEnv :=
  { ragSearch := fun _ _ => []
    webCall := .ok []
    gen := fun _ _ _ => .ok "hello" }

/-- C10 counterexample: on the rag→web→deep fallback path the assistant
turn appended to the session stores the raw generated text `"hello"`, while
the response returned to the caller additionally carries the fallback note
and the fallback disclosure — so the assistant turn does not store the
final post-fallback response text, contradicting the claim as stated. -/
theorem claim_C10_counterexample :
    (chat c10Env ⟨[], 5⟩ "q" "rag").st.history =
      [⟨"user", "q"⟩, ⟨"assistant", "hello"⟩] ∧
    (chat c10Env ⟨[], 5⟩ "q" "rag").resp.response ≠ "hello" := by
  constructor
  · rfl
  · decide

theorem claim_C10_single_turn_pair_witness :
    (chat c10Env ⟨[], 5⟩ "q" "rag").st.history =
      lastN 10 [⟨"user", "q"⟩, ⟨"assistant", "hello"⟩] :=
  (claim_C10_single_turn_pair c10Env ⟨[], 5⟩ "q" "rag" (by decide)).1 "hello" rfl

/-- A vector-index result scored 0.31. -/
def c1Result : ScoredResult :=
  { title := "t", content := "c", url := "u", source := "s", score := 31/100 }

/-- Environment whose vector index returns one result scored 0.31. -/
def c1Env : ChatEnv :=
  { ragSearch := fun _ _ => [c1Result]
    webCall := .ok []
    gen := fun _ _ _ => .ok "ok" }

theorem claim_C1_rag_threshold_witness :
    (chat c1Env ⟨[], 5⟩ "q" "rag").resp.fallback_used = false ∧
    (chat c1Env ⟨[], 5⟩ "q" "rag").resp.mode_used = "rag" :=
  (claim_C1_rag_threshold c1Env ⟨[], 5⟩ "q").2.2.2
    ⟨c1Result, by simp [c1Env], rfl⟩

theorem claim_C4_mode_gated_fields_witness :
    (chat c10Env ⟨[], 5⟩ "q" "rag").resp.sources = [] :=
  (claim_C4_mode_gated_fields c10Env ⟨[], 5⟩ "q" "rag" "" [] "" "" "error"
      false "").1 (by decide)
